import Mathlib

/-!
Shallow embedding of `src/tx/wasmcontracttx.cpp` (WaykiChain WASM contract
transaction): admission checks (`CheckTx`), fuel accounting (`GetFuel`),
the billing stopwatch (`pause_billing_timer` / `resume_billing_timer`),
execution orchestration (`ExecuteTx` / `DispatchInlineTransaction`) and the
JSON trace serializer (the `to_variant` overloads).

External collaborators (the account/contract store, the generic transaction
framework macros, the WASM execution engine, the ABI decoder, the native-ABI
registry, `wasm::name` rendering) are modelled as explicit parameters, as the
spec scopes them out of this core and only their interface matters here.
64-bit name values are modelled as `Nat`, byte blobs as `List Nat`, chrono
time points and durations as `Int` (microsecond counts, signed like
`std::chrono` durations).
-/

namespace WasmTx

/-- `wasm::permission` (account id, permission name), both 64-bit names. -/
structure Permission where
  account : Nat
  perm : Nat
deriving DecidableEq, Repr

/-- `wasm::inline_transaction`: contract id, action id, authorization list,
opaque binary payload. -/
structure InlineTransaction where
  contract : Nat
  action : Nat
  authorization : List Permission
  data : List Nat
deriving DecidableEq, Repr

/-- The slice of `CAccount` read by this file: `regid` (contract lookup key),
`HaveOwnerPubKey()`, and `wasm::name(nickid.ToString()).value` (the sender
identity compared by `authorization_is_valid`, line 246). -/
structure Account where
  regid : Nat
  hasOwnerPubkey : Bool
  nickname : Nat
deriving DecidableEq, Repr

/-- The slice of `CUniversalContract` read by this file: `code` and `abi`. -/
structure ContractRecord where
  code : List Nat
  abi : List Nat
deriving DecidableEq, Repr

/-- Labels for the distinct rejection sites of `CheckTx` (lines 220-253).
In the source every site throws `account_operation_exception` with a
distinguishing message; the spec's error taxonomy (§7) names each site, and
this enum keeps those names.  The three `Generic...` constructors stand for
the shared-framework macros `IMPLEMENT_CHECK_TX_FEE`,
`IMPLEMENT_CHECK_TX_REGID` and `IMPLEMENT_CHECK_TX_SIGNATURE`, which the spec
scopes out ("delegated, not reimplemented here"). -/
inductive RejectKind where
  | MalformedTransaction
  | GenericFeeCheckFailed
  | GenericRegidCheckFailed
  | GenericSignatureCheckFailed
  | ContractNotFound
  | ContractIncomplete
  | InsufficientFee
  | AccountNotFound
  | UnregisteredAccount
  | AuthorizationDenied
deriving DecidableEq, Repr

/-- An error escaping a check: either a `wasm::exception` (carrying the site
label), which `CheckTx`'s handler catches, or a `std::runtime_error` message,
which it does not (its `catch` clause matches only `wasm::exception&`). -/
inductive CheckErr where
  | wasmExc (k : RejectKind)
  | runtimeErr (msg : String)
deriving DecidableEq, Repr

/-- Outcome of `CheckTx` when no exception escapes: `true`, or a `DoS`
rejection labelled with the site that fired. -/
inductive CheckResult where
  | accepted
  | rejected (k : RejectKind)
deriving DecidableEq, Repr

/-- The transaction-execution context plus the transaction-envelope state
`CheckTx` reads.  Store lookups (`accountCache.GetAccount`,
`contractCache.GetContract`), the native-contract predicate, the min-fee
schedule and the framework macros are external collaborators, injected as
fields.  `fuelTerm` is the value of the C++ float expression
`(uint64_t)((nRunStep / 100.0f) * nFuelRate)` of `GetFuel` (line 325),
supplied by the context because 32-bit float rounding is outside this
integer embedding (see the development notes on the fuel claim). -/
structure Ctx where
  feeCheckOk : Bool
  regidCheckOk : Bool
  sigCheckOk : Bool
  isNative : Nat → Bool
  accountOf : Nat → Option Account
  contractOf : Nat → Option ContractRecord
  senderAccount : Option Account
  minFee : Option Nat
  fuelTerm : Nat

/-- `CWasmContractTx` fields read by `CheckTx`/`ExecuteTx`: the inline
transaction list, the paid fee `llFees`, and `GetHash()` (as a `Nat` id). -/
structure Tx where
  inlinetransactions : List InlineTransaction
  llFees : Nat
  hash : Nat

/-- Inner loop of `authorization_is_valid` (lines 206-215): the first
permission whose account differs from the sender identity throws. -/
def perms_all_signed (account : Nat) : List Permission → Except RejectKind Unit
  | [] => Except.ok ()
  | p :: rest =>
    if p.account ≠ account then Except.error RejectKind.AuthorizationDenied
    else perms_all_signed account rest

/-- `CWasmContractTx::authorization_is_valid` (lines 204-218): every
authorization entry of every inline transaction must name `account`. -/
def authorization_is_valid (account : Nat) : List InlineTransaction → Except RejectKind Unit
  | [] => Except.ok ()
  | i :: rest =>
    match perms_all_signed account i.authorization with
    | Except.error k => Except.error k
    | Except.ok () => authorization_is_valid account rest

/-- `CWasmContractTx::contract_is_valid` (lines 173-202): each non-native
contract must resolve to an account, that account to a stored contract, and
the stored code and ABI must both be non-empty. -/
def contract_is_valid (ctx : Ctx) : List InlineTransaction → Except RejectKind Unit
  | [] => Except.ok ()
  | i :: rest =>
    if ctx.isNative i.contract then contract_is_valid ctx rest
    else
      match ctx.accountOf i.contract with
      | none => Except.error RejectKind.ContractNotFound
      | some acct =>
        match ctx.contractOf acct.regid with
        | none => Except.error RejectKind.ContractNotFound
        | some cr =>
          if 0 < cr.code.length ∧ 0 < cr.abi.length then contract_is_valid ctx rest
          else Except.error RejectKind.ContractIncomplete

/-- The message of the `runtime_error` thrown by `GetFuel` (line 322). -/
def minFeeErrorMsg : String := "CWasmContractTx::GetFuel(), get min_fee failed"

/-- `CWasmContractTx::GetFuel` (lines 318-326): if the min-fee lookup fails it
throws `std::runtime_error` (not a `wasm::exception`); otherwise it returns
`max(fuelTerm, minFee)` where `fuelTerm` is the context-supplied value of the
float expression `(nRunStep / 100.0f) * nFuelRate` truncated to `uint64_t`. -/
def GetFuel (ctx : Ctx) : Except String Nat :=
  match ctx.minFee with
  | none => Except.error minFeeErrorMsg
  | some m => Except.ok (max ctx.fuelTerm m)

/-- Body of the `try` block of `CWasmContractTx::CheckTx` (lines 222-246),
checks in source order, first failure short-circuiting. -/
def checkTxInner (ctx : Ctx) (tx : Tx) : Except CheckErr Unit :=
  if 0 < tx.inlinetransactions.length then
    if ctx.feeCheckOk then
      if ctx.regidCheckOk then
        match contract_is_valid ctx tx.inlinetransactions with
        | Except.error k => Except.error (CheckErr.wasmExc k)
        | Except.ok () =>
          match GetFuel ctx with
          | Except.error m => Except.error (CheckErr.runtimeErr m)
          | Except.ok fuel =>
            if fuel < tx.llFees then
              match ctx.senderAccount with
              | none => Except.error (CheckErr.wasmExc RejectKind.AccountNotFound)
              | some account =>
                if account.hasOwnerPubkey then
                  if ctx.sigCheckOk then
                    match authorization_is_valid account.nickname tx.inlinetransactions with
                    | Except.error k => Except.error (CheckErr.wasmExc k)
                    | Except.ok () => Except.ok ()
                  else Except.error (CheckErr.wasmExc RejectKind.GenericSignatureCheckFailed)
                else Except.error (CheckErr.wasmExc RejectKind.UnregisteredAccount)
            else Except.error (CheckErr.wasmExc RejectKind.InsufficientFee)
      else Except.error (CheckErr.wasmExc RejectKind.GenericRegidCheckFailed)
    else Except.error (CheckErr.wasmExc RejectKind.GenericFeeCheckFailed)
  else Except.error (CheckErr.wasmExc RejectKind.MalformedTransaction)

/-- `CWasmContractTx::CheckTx` (lines 220-253): its handler catches only
`wasm::exception` and converts it into a `DoS` rejection; a `runtime_error`
(only `GetFuel` throws one) propagates past `CheckTx` as `Except.error`. -/
def CheckTx (ctx : Ctx) (tx : Tx) : Except String CheckResult :=
  match checkTxInner ctx tx with
  | Except.ok () => Except.ok CheckResult.accepted
  | Except.error (CheckErr.wasmExc k) => Except.ok (CheckResult.rejected k)
  | Except.error (CheckErr.runtimeErr m) => Except.error m

/-- The billing stopwatch state embedded in `CWasmContractTx`:
`pseudo_start` (a `system_clock::time_point`) and `billed_time` (a
`chrono::microseconds` duration, signed).  Both are microsecond counts. -/
structure TimerState where
  pseudo_start : Int
  billed_time : Int
deriving DecidableEq, Repr

/-- `CWasmContractTx::pause_billing_timer` (lines 150-159): a no-op when
`billed_time > 0`, otherwise records `billed_time = now - pseudo_start`. -/
def pause_billing_timer (now : Int) (s : TimerState) : TimerState :=
  if 0 < s.billed_time then s
  else { s with billed_time := now - s.pseudo_start }

/-- `CWasmContractTx::resume_billing_timer` (lines 161-171): a no-op when
`billed_time == 0`, otherwise sets `pseudo_start = now - billed_time` and
clears `billed_time`. -/
def resume_billing_timer (now : Int) (s : TimerState) : TimerState :=
  if s.billed_time = 0 then s
  else { pseudo_start := now - s.billed_time, billed_time := 0 }

/-- An elapsed reading of the running timer, as taken by `ExecuteTx`
(line 273): `now - pseudo_start`. -/
def timer_elapsed (now : Int) (s : TimerState) : Int :=
  now - s.pseudo_start

/-- `json_spirit` value tree: strings, integers, arrays, objects. -/
inductive JVal where
  | jstr (s : String)
  | jint (n : Int)
  | jarr (elems : List JVal)
  | jobj (fields : List (String × JVal))
deriving Repr

/-- Modelled from the spec: the repository utility `ToHex(data, "")` (outside
`src/`) renders a byte sequence as a lowercase hex string, two digits per
byte, no separator. -/
def hexDigit (n : Nat) : Char :=
  if n < 10 then Char.ofNat (48 + n) else Char.ofNat (87 + n)

/-- Two lowercase hex digits of one byte. -/
def hexByte (b : Nat) : String :=
  String.mk [hexDigit (b / 16 % 16), hexDigit (b % 16)]

/-- `ToHex(bs, "")`: lowercase hex of a byte string. -/
def ToHex (bs : List Nat) : String :=
  String.join (bs.map hexByte)

/-- External collaborators of the trace serializer (lines 40-148):
`wasm::name(-).to_string()` rendering, `uint256::ToString()` for transaction
ids, the native-ABI registry `get_native_contract_abi`, the account/contract
store, the ABI decoder `wasm::abi_serializer::unpack` (`none` models any
thrown decoding exception), and the 64-bit name constant `wasm::N(setcode)`. -/
structure SerEnv where
  nameToString : Nat → String
  hashToString : Nat → String
  nativeAbi : Nat → Option (List Nat)
  accountOf : Nat → Option Account
  contractOf : Nat → Option ContractRecord
  unpack : List Nat → String → List Nat → Option JVal
  setcode : Nat

/-- ABI resolution of `to_variant(inline_transaction&)` (lines 59-68): the
native registry first, else the deployed contract's stored ABI when both the
contract account and its contract record resolve, else empty. -/
def abi_for_contract (env : SerEnv) (c : Nat) : List Nat :=
  match env.nativeAbi c with
  | some a => a
  | none =>
    match env.accountOf c with
    | some acct =>
      match env.contractOf acct.regid with
      | some cr => cr.abi
      | none => []
    | none => []

/-- `to_variant(const wasm::permission&, ...)` (lines 25-37). -/
def to_variant_permission (env : SerEnv) (p : Permission) : JVal :=
  JVal.jobj
    [("account", JVal.jstr (env.nameToString p.account)),
     ("permission", JVal.jstr (env.nameToString p.perm))]

/-- The value stored under `"data"` by `to_variant(inline_transaction&)`
(lines 70-80).  The C++ reuses one local `val` for every field; on entering
the data branch `val` still holds the rendering of `wasm::name(t.action)`
(line 48), so when the ABI is available, the action is not `setcode`, and the
payload is empty, no branch reassigns `val` and the `"data"` field receives
the action-name string. -/
def inline_tx_data_variant (env : SerEnv) (t : InlineTransaction) : JVal :=
  let abi := abi_for_contract env t.contract
  if 0 < abi.length ∧ t.action ≠ env.setcode then
    if 0 < t.data.length then
      match env.unpack abi (env.nameToString t.action) t.data with
      | some v => v
      | none => JVal.jstr (ToHex t.data)
    else JVal.jstr (env.nameToString t.action)
  else JVal.jstr (ToHex t.data)

/-- `to_variant(const wasm::inline_transaction&, ...)` (lines 40-85). -/
def to_variant_inline_transaction (env : SerEnv) (t : InlineTransaction) : JVal :=
  JVal.jobj
    [("contract", JVal.jstr (env.nameToString t.contract)),
     ("action", JVal.jstr (env.nameToString t.action)),
     ("authorization", JVal.jarr (t.authorization.map (to_variant_permission env))),
     ("data", inline_tx_data_variant env t)]

/-- `wasm::inline_transaction_trace`: origin transaction id, receiver,
echoed inline transaction, console text, nested traces. -/
inductive ITrace where
  | mk (trx_id : Nat) (receiver : Nat) (trx : InlineTransaction) (console : String)
      (inline_traces : List ITrace)

/-- The nested traces of an `ITrace`. -/
def ITrace.inline_traces : ITrace → List ITrace
  | .mk _ _ _ _ l => l

/-- `to_variant(const wasm::inline_transaction_trace&, ...)` (lines 88-122):
the `"inline_traces"` field is emitted only when the nested list is
non-empty. -/
def to_variant_itrace (env : SerEnv) : ITrace → JVal
  | .mk tid rcv trx console inls =>
    JVal.jobj
      ([("trx_id", JVal.jstr (env.hashToString tid)),
        ("receiver", JVal.jstr (env.nameToString rcv)),
        ("trx", to_variant_inline_transaction env trx),
        ("console", JVal.jstr console)] ++
       (if 0 < inls.length then
          [("inline_traces", JVal.jarr (inls.attach.map (fun t => to_variant_itrace env t.1)))]
        else []))
decreasing_by
  simp_wf
  have h := List.sizeOf_lt_of_mem t.2
  omega

/-- `wasm::transaction_trace`: id, elapsed microseconds, top-level traces. -/
structure TransactionTrace where
  trx_id : Nat
  elapsed : Int
  traces : List ITrace

/-- `to_variant(const wasm::transaction_trace&, ...)` (lines 125-148): the
`"traces"` field is emitted only when the list is non-empty. -/
def to_variant_transaction_trace (env : SerEnv) (t : TransactionTrace) : JVal :=
  JVal.jobj
    ([("trx_id", JVal.jstr (env.hashToString t.trx_id)),
      ("elapsed", JVal.jint t.elapsed)] ++
     (if 0 < t.traces.length then
        [("traces", JVal.jarr (t.traces.map (to_variant_itrace env)))]
      else []))

/-- A `wasm::exception` as caught by `ExecuteTx`: `code()` and `detail()`. -/
structure WasmErr where
  code : Nat
  detail : String
deriving DecidableEq, Repr

/-- The environment of `ExecuteTx`: the serializer collaborators plus the
execution engine.  `engine trx receiver depth timer` models constructing
`wasm_context(*this, trx, database, depth)`, setting `_receiver = receiver`
and calling `execute` (lines 302-304): it yields the filled
`inline_transaction_trace` and the transaction's timer state after the call
(the engine holds a reference to `*this` and may pause/resume the billing
timer), or the `wasm::exception` it threw. -/
structure ExecEnv where
  ser : SerEnv
  engine : InlineTransaction → Nat → Nat → TimerState → Except WasmErr (ITrace × TimerState)

/-- `CWasmContractTx::DispatchInlineTransaction` (lines 295-306): build a
fresh engine context over `(trx, receiver, recurse_depth)` and execute it. -/
def DispatchInlineTransaction (env : ExecEnv) (trx : InlineTransaction) (receiver : Nat)
    (recurse_depth : Nat) (timer : TimerState) : Except WasmErr (ITrace × TimerState) :=
  env.engine trx receiver recurse_depth timer

/-- The dispatch loop of `ExecuteTx` (lines 269-272): for each inline
transaction in list order, append one trace slot and dispatch into it with
`receiver = trx.contract` and `recurse_depth = 0`, threading the billing
timer state; the first engine exception aborts the loop. -/
def runDispatches (env : ExecEnv) : List InlineTransaction → TimerState →
    Except WasmErr (List ITrace × TimerState)
  | [], s => Except.ok ([], s)
  | t :: rest, s =>
    match DispatchInlineTransaction env t t.contract 0 s with
    | Except.error e => Except.error e
    | Except.ok (tr, s1) =>
      match runDispatches env rest s1 with
      | Except.error e => Except.error e
      | Except.ok (trs, s2) => Except.ok (tr :: trs, s2)

/-- The `DoS` rejection produced by the `catch` clause of `ExecuteTx`
(line 288): level 100, the exception's code, the exception's detail. -/
structure DoSError where
  level : Nat
  code : Nat
  msg : String
deriving DecidableEq, Repr

/-- Successful outcome of `ExecuteTx`: the final timer state, the assembled
`transaction_trace`, and the serialized trace document handed to
`SetReturn` (lines 282-285; the final `json_spirit::write` to a byte string
belongs to the external JSON library). -/
structure ExecOutcome where
  timer : TimerState
  trace : TransactionTrace
  result : JVal

/-- `CWasmContractTx::ExecuteTx` (lines 255-293): set `pseudo_start = now`
(line 261; `billed_time` keeps its prior value), build a trace tagged with
`GetHash()`, run the dispatch loop, set `elapsed = now - pseudo_start` from
the timer at completion time `endTime` (line 273), serialize the trace and
set it as the result.  A `wasm::exception` from any dispatch is caught and
converted to a `DoS(100, ...)` failure carrying the exception's code and
detail; the local trace is discarded and no result is set. -/
def ExecuteTx (env : ExecEnv) (tx : Tx) (prior : TimerState) (startTime endTime : Int) :
    Except DoSError ExecOutcome :=
  let s0 : TimerState := { pseudo_start := startTime, billed_time := prior.billed_time }
  match runDispatches env tx.inlinetransactions s0 with
  | Except.error e => Except.error { level := 100, code := e.code, msg := e.detail }
  | Except.ok (trs, s1) =>
    let trace : TransactionTrace :=
      { trx_id := tx.hash, elapsed := timer_elapsed endTime s1, traces := trs }
    Except.ok { timer := s1, trace := trace, result := to_variant_transaction_trace env.ser trace }

/-! Concrete fixtures used to evaluate the definitions on closed inputs. -/

/-- A sender account fixture: registered key, identity name 42. -/
def accountW : Account := { regid := 0, hasOwnerPubkey := true, nickname := 42 }

/-- A context fixture in which every delegated check passes, every contract
is native, the min fee is 0 and the float fuel term is 0. -/
def ctxW : Ctx :=
  { feeCheckOk := true
  , regidCheckOk := true
  , sigCheckOk := true
  , isNative := fun _ => true
  , accountOf := fun _ => none
  , contractOf := fun _ => none
  , senderAccount := some accountW
  , minFee := some 0
  , fuelTerm := 0 }

/-- `ctxW` with a failing min-fee lookup. -/
def ctxNoFeeW : Ctx := { ctxW with minFee := none }

/-- An inline transaction whose single authorization entry names account 43,
which differs from `accountW.nickname = 42`. -/
def itxBadAuthW : InlineTransaction :=
  { contract := 1, action := 2, authorization := [{ account := 43, perm := 7 }], data := [] }

/-- A transaction carrying `itxBadAuthW`, fee 1. -/
def txBadAuthW : Tx := { inlinetransactions := [itxBadAuthW], llFees := 1, hash := 0 }

/-- A transaction with an empty inline-transaction list. -/
def txEmptyW : Tx := { inlinetransactions := [], llFees := 1, hash := 0 }

/-- A serializer environment fixture: names and hashes render as decimal
digits, contract 1 has the one-byte native ABI `[0]`, the store is empty,
the ABI decoder always fails, `setcode` is the name value 99. -/
def serEnvW : SerEnv :=
  { nameToString := fun n => Nat.repr n
  , hashToString := fun n => Nat.repr n
  , nativeAbi := fun c => if c = 1 then some [0] else none
  , accountOf := fun _ => none
  , contractOf := fun _ => none
  , unpack := fun _ _ _ => none
  , setcode := 99 }

/-- An inline transaction aimed at contract 1 (which has a native ABI in
`serEnvW`), action 5 (not `setcode`), with an EMPTY payload. -/
def itxEmptyDataW : InlineTransaction :=
  { contract := 1, action := 5, authorization := [], data := [] }

/-- Inline transaction fixtures for the execution-orchestration claims. -/
def itxExecA : InlineTransaction := { contract := 10, action := 1, authorization := [], data := [] }

/-- Second inline transaction fixture (contract 11). -/
def itxExecB : InlineTransaction := { contract := 11, action := 2, authorization := [], data := [] }

/-- An engine that always succeeds, echoing the receiver and the inline
transaction into the trace and leaving the timer untouched. -/
def engineOkW : InlineTransaction → Nat → Nat → TimerState → Except WasmErr (ITrace × TimerState) :=
  fun t r _ s => Except.ok (ITrace.mk 0 r t "" [], s)

/-- An engine that throws `wasm::exception` code 123 on contract 11 and
succeeds elsewhere. -/
def engineFailW : InlineTransaction → Nat → Nat → TimerState → Except WasmErr (ITrace × TimerState) :=
  fun t r _ s =>
    if t.contract = 11 then Except.error { code := 123, detail := "inline tx failed" }
    else Except.ok (ITrace.mk 0 r t "" [], s)

/-- Execution environment over `serEnvW` with the succeeding engine. -/
def envExecOkW : ExecEnv := { ser := serEnvW, engine := engineOkW }

/-- Execution environment over `serEnvW` with the failing engine. -/
def envExecFailW : ExecEnv := { ser := serEnvW, engine := engineFailW }

/-- A transaction with two inline transactions, hash 7. -/
def txExecW : Tx := { inlinetransactions := [itxExecA, itxExecB], llFees := 0, hash := 7 }

/-- The traces `engineOkW` produces for `txExecW`'s two inline transactions. -/
def trsExecW : List ITrace := [ITrace.mk 0 10 itxExecA "" [], ITrace.mk 0 11 itxExecB "" []]

/-! Helper lemmas (shared; not tied to a single claim). -/

-- `perms_all_signed` succeeds exactly when every entry names `a`.
theorem perms_all_signed_ok_iff (a : Nat) (ps : List Permission) :
    perms_all_signed a ps = Except.ok () ↔ ∀ p ∈ ps, p.account = a := by
  induction ps with
  | nil => simp [perms_all_signed]
  | cons p rest ih =>
    by_cases hp : p.account = a
    · simp [perms_all_signed, hp, ih]
    · simp [perms_all_signed, hp]

-- `perms_all_signed` either succeeds or fails with `AuthorizationDenied`.
theorem perms_all_signed_cases (a : Nat) (ps : List Permission) :
    perms_all_signed a ps = Except.ok () ∨
      perms_all_signed a ps = Except.error RejectKind.AuthorizationDenied := by
  induction ps with
  | nil => exact Or.inl rfl
  | cons p rest ih =>
    by_cases hp : p.account = a
    · simpa [perms_all_signed, hp] using ih
    · exact Or.inr (by simp [perms_all_signed, hp])

-- `authorization_is_valid` succeeds exactly when every authorization entry
-- of every inline transaction names `a`.
theorem authorization_is_valid_ok_iff (a : Nat) (l : List InlineTransaction) :
    authorization_is_valid a l = Except.ok () ↔
      ∀ i ∈ l, ∀ p ∈ i.authorization, p.account = a := by
  induction l with
  | nil => simp [authorization_is_valid]
  | cons i rest ih =>
    rcases perms_all_signed_cases a i.authorization with h | h
    · have hall := (perms_all_signed_ok_iff a i.authorization).mp h
      simp [authorization_is_valid, h, ih, hall]
      exact fun _ => hall
    · have hno : ¬ ∀ p ∈ i.authorization, p.account = a := by
        intro hc
        rw [← perms_all_signed_ok_iff] at hc
        rw [hc] at h
        simp at h
      constructor
      · intro hok
        rw [authorization_is_valid, h] at hok
        simp at hok
      · intro hall
        exact (hno (hall i (List.mem_cons_self i rest))).elim

-- `authorization_is_valid` either succeeds or fails with
-- `AuthorizationDenied`.
theorem authorization_is_valid_cases (a : Nat) (l : List InlineTransaction) :
    authorization_is_valid a l = Except.ok () ∨
      authorization_is_valid a l = Except.error RejectKind.AuthorizationDenied := by
  induction l with
  | nil => exact Or.inl rfl
  | cons i rest ih =>
    rcases perms_all_signed_cases a i.authorization with h | h
    · simpa [authorization_is_valid, h] using ih
    · exact Or.inr (by simp [authorization_is_valid, h])

-- `contract_is_valid` can only fail with a contract-related kind.
theorem contract_is_valid_error_kinds (ctx : Ctx) (l : List InlineTransaction) (k : RejectKind)
    (h : contract_is_valid ctx l = Except.error k) :
    k = RejectKind.ContractNotFound ∨ k = RejectKind.ContractIncomplete := by
  induction l with
  | nil => simp [contract_is_valid] at h
  | cons i rest ih =>
    unfold contract_is_valid at h
    split at h
    · exact ih h
    · split at h
      · simp at h
        exact Or.inl h.symm
      · split at h
        · simp at h
          exact Or.inl h.symm
        · split at h
          · exact ih h
          · simp at h
            exact Or.inr h.symm

/-- C8 counterexample: starting from a running timer with
`pseudo_start = 0`, a pause at instant 0 measures a zero span, so
`billed_time` stays 0 and a second pause at instant 1 measures afresh:
pausing twice does not equal pausing once. -/
theorem pause_twice_ne_pause_once_at_zero_span :
    pause_billing_timer 1 (pause_billing_timer 0 { pseudo_start := 0, billed_time := 0 }) ≠
      pause_billing_timer 0 { pseudo_start := 0, billed_time := 0 } := by
  decide

/-- C8 (amended): `resume` twice always equals `resume` once; pausing while
already paused and resuming while already running are no-ops; and `pause`
twice equals `pause` once provided the timer was already paused or the first
pause measured a strictly positive span (the zero-span corner case of the
counterexample is the only exception). -/
theorem timer_pause_resume_idempotence (s : TimerState) (t1 t2 : Int) :
    (0 < s.billed_time ∨ 0 < t1 - s.pseudo_start →
      pause_billing_timer t2 (pause_billing_timer t1 s) = pause_billing_timer t1 s) ∧
    resume_billing_timer t2 (resume_billing_timer t1 s) = resume_billing_timer t1 s ∧
    (0 < s.billed_time → pause_billing_timer t1 s = s) ∧
    (s.billed_time = 0 → resume_billing_timer t1 s = s) := by
  unfold pause_billing_timer resume_billing_timer
  refine ⟨?_, ?_, ?_, ?_⟩
  · intro h
    split
    · rfl
    · rename_i hnp
      rcases h with h | h
      · split
        · rfl
        · exact absurd h (by assumption)
      · rw [if_pos]
        simpa using h
  · split
    · rfl
    · simp
  · intro h
    rw [if_pos h]
  · intro h
    rw [if_pos h]

/-- C8 witness: a first pause with a strictly positive span, after which a
second pause is a no-op. -/
theorem timer_pause_resume_idempotence_witness :
    ((0 : Int) < ({ pseudo_start := 0, billed_time := 0 } : TimerState).billed_time ∨
      (0 : Int) < 1 - ({ pseudo_start := 0, billed_time := 0 } : TimerState).pseudo_start) ∧
    pause_billing_timer 5 (pause_billing_timer 1 { pseudo_start := 0, billed_time := 0 }) =
      pause_billing_timer 1 { pseudo_start := 0, billed_time := 0 } :=
  ⟨Or.inr (by decide),
   (timer_pause_resume_idempotence { pseudo_start := 0, billed_time := 0 } 1 5).1
     (Or.inr (by decide))⟩

/-- C9: resuming a paused timer whose frozen span is `e` at instant `r` sets
`pseudo_start = r - e` and `billed_time = 0`, so every later elapsed reading
at instant `t` equals `e + (t - r)`: the pre-pause elapsed plus the
post-resume elapsed, excluding the paused interval. -/
theorem resume_continues_from_frozen (s : TimerState) (e r t : Int)
    (hpaused : s.billed_time = e) (hpos : 0 < e) :
    (resume_billing_timer r s).pseudo_start = r - e ∧
    (resume_billing_timer r s).billed_time = 0 ∧
    timer_elapsed t (resume_billing_timer r s) = e + (t - r) := by
  subst hpaused
  unfold resume_billing_timer timer_elapsed
  rw [if_neg (by omega)]
  exact ⟨rfl, rfl, by ring⟩

/-- C9 witness: a timer paused with span 5 is resumed at instant 10; the
reading at instant 13 is 5 + 3. -/
theorem resume_continues_from_frozen_witness :
    ({ pseudo_start := 0, billed_time := 5 } : TimerState).billed_time = 5 ∧ (0 : Int) < 5 ∧
    timer_elapsed 13 (resume_billing_timer 10 { pseudo_start := 0, billed_time := 5 }) =
      5 + (13 - 10) :=
  ⟨rfl, by decide,
   (resume_continues_from_frozen { pseudo_start := 0, billed_time := 5 } 5 10 13 rfl
     (by decide)).2.2⟩

/-- C10: pausing a running timer at the instant where the measured span is
zero leaves `billed_time = 0`, so the pause has no effect, a subsequent
resume is a no-op, and a later pause measures from the original
`pseudo_start`. -/
theorem pause_zero_span_is_ignored (s : TimerState) (t : Int)
    (hrun : s.billed_time = 0) (hzero : t - s.pseudo_start = 0) :
    pause_billing_timer t s = s ∧
    (∀ u, resume_billing_timer u (pause_billing_timer t s) = pause_billing_timer t s) ∧
    (∀ u, pause_billing_timer u (pause_billing_timer t s) = pause_billing_timer u s) := by
  have hp : pause_billing_timer t s = s := by
    unfold pause_billing_timer
    rw [if_neg (by omega)]
    cases s
    simp_all
  refine ⟨hp, fun u => ?_, fun u => ?_⟩
  · rw [hp]
    unfold resume_billing_timer
    rw [if_pos hrun]
  · rw [hp]

/-- C10 witness: a running timer with `pseudo_start = 3` paused at instant 3
is unchanged. -/
theorem pause_zero_span_is_ignored_witness :
    ({ pseudo_start := 3, billed_time := 0 } : TimerState).billed_time = 0 ∧
    (3 : Int) - ({ pseudo_start := 3, billed_time := 0 } : TimerState).pseudo_start = 0 ∧
    pause_billing_timer 3 { pseudo_start := 3, billed_time := 0 } =
      { pseudo_start := 3, billed_time := 0 } :=
  ⟨rfl, by decide,
   (pause_zero_span_is_ignored { pseudo_start := 3, billed_time := 0 } 3 rfl (by decide)).1⟩

/-- C4: with an available non-empty ABI (native registry), an action that is
not `setcode`, and an EMPTY payload, the serializer stores the rendering of
the ACTION NAME under `"data"` — the C++ local `val` is never reassigned on
that path and still holds the `"action"` field's value — whereas the claim
(and the spec) say an empty payload is always rendered as hex, which for an
empty payload is the empty string.  In `serEnvW`, contract 1 has native ABI
`[0]`, action 5 renders as `"5"`, `setcode = 99`, and the payload is `[]`. -/
theorem serializer_empty_payload_renders_action_name :
    to_variant_inline_transaction serEnvW itxEmptyDataW =
      JVal.jobj
        [("contract", JVal.jstr "1"), ("action", JVal.jstr "5"),
         ("authorization", JVal.jarr []), ("data", JVal.jstr "5")] ∧
    ToHex itxEmptyDataW.data = "" ∧ ("5" : String) ≠ "" :=
  ⟨rfl, rfl, by decide⟩

-- The check pipeline throws `MalformedTransaction` exactly on an empty
-- inline-transaction list.
theorem checkTxInner_malformed_iff (ctx : Ctx) (tx : Tx) :
    checkTxInner ctx tx = Except.error (CheckErr.wasmExc RejectKind.MalformedTransaction) ↔
      tx.inlinetransactions = [] := by
  constructor
  · intro h
    by_contra hne
    have hpos : 0 < tx.inlinetransactions.length := List.length_pos.mpr hne
    unfold checkTxInner at h
    rw [if_pos hpos] at h
    split at h
    · split at h
      · split at h
        · rename_i x k heq
          simp at h
          have hkinds := contract_is_valid_error_kinds ctx tx.inlinetransactions k heq
          simp [h] at hkinds
        · split at h
          · simp at h
          · split at h
            · split at h
              · simp at h
              · rename_i account heq2
                split at h
                · split at h
                  · split at h
                    · rename_i x2 k2 heq3
                      simp at h
                      rcases authorization_is_valid_cases account.nickname
                          tx.inlinetransactions with hc | hc
                      · rw [heq3] at hc
                        simp at hc
                      · rw [heq3] at hc
                        simp at hc
                        simp [hc] at h
                    · simp at h
                  · simp at h
                · simp at h
            · simp at h
      · simp at h
    · simp at h
  · intro h
    simp [checkTxInner, h]
/-- C1: for every context and transaction, `CheckTx` rejects with kind
`MalformedTransaction` if and only if the inline-transaction list is empty.
The left-to-right direction shows no other check site can produce this kind;
the right-to-left direction holds for EVERY context — in particular for
contexts in which every later check would also fail — so the non-emptiness
check is first and short-circuits all later checks. -/
theorem checkTx_malformed_iff_empty (ctx : Ctx) (tx : Tx) :
    CheckTx ctx tx = Except.ok (CheckResult.rejected RejectKind.MalformedTransaction) ↔
      tx.inlinetransactions = [] := by
  rw [← checkTxInner_malformed_iff ctx tx]
  unfold CheckTx
  constructor
  · intro h
    split at h
    · simp at h
    · rename_i k heq
      simp at h
      rw [heq, h]
    · simp at h
  · intro h
    rw [h]

/-- C1 witness: the empty-list transaction is rejected as malformed in a
context in which every other check would pass. -/
theorem checkTx_malformed_iff_empty_witness :
    CheckTx ctxW txEmptyW = Except.ok (CheckResult.rejected RejectKind.MalformedTransaction) :=
  (checkTx_malformed_iff_empty ctxW txEmptyW).mpr rfl

/-- C2: when every admission check before the authorization check passes
(non-empty list, delegated fee/regid checks, contract validity, affordable
fuel, resolvable sender with an owner key, valid signature), `CheckTx`
rejects with kind `AuthorizationDenied` if and only if some authorization
entry of some inline transaction names an account other than the sender's
resolved identity (`wasm::name(account.nickid.ToString()).value`); if every
entry names the sender, `CheckTx` accepts. -/
theorem checkTx_self_authorization (ctx : Ctx) (tx : Tx) (account : Account) (m : Nat)
    (h1 : tx.inlinetransactions ≠ [])
    (h2 : ctx.feeCheckOk = true)
    (h3 : ctx.regidCheckOk = true)
    (h4 : contract_is_valid ctx tx.inlinetransactions = Except.ok ())
    (h5 : ctx.minFee = some m)
    (h6 : max ctx.fuelTerm m < tx.llFees)
    (h7 : ctx.senderAccount = some account)
    (h8 : account.hasOwnerPubkey = true)
    (h9 : ctx.sigCheckOk = true) :
    (CheckTx ctx tx = Except.ok (CheckResult.rejected RejectKind.AuthorizationDenied) ↔
      ∃ i ∈ tx.inlinetransactions, ∃ p ∈ i.authorization, p.account ≠ account.nickname) ∧
    ((∀ i ∈ tx.inlinetransactions, ∀ p ∈ i.authorization, p.account = account.nickname) →
      CheckTx ctx tx = Except.ok CheckResult.accepted) := by
  have hpos : 0 < tx.inlinetransactions.length := List.length_pos.mpr h1
  have hred : checkTxInner ctx tx =
      match authorization_is_valid account.nickname tx.inlinetransactions with
      | Except.error k => Except.error (CheckErr.wasmExc k)
      | Except.ok () => Except.ok () := by
    simp [checkTxInner, GetFuel, hpos, h2, h3, h4, h5, h6, h7, h8, h9]
  rcases authorization_is_valid_cases account.nickname tx.inlinetransactions with hok | herr
  · have hacc : CheckTx ctx tx = Except.ok CheckResult.accepted := by
      unfold CheckTx
      rw [hred, hok]
    refine ⟨?_, fun _ => hacc⟩
    rw [hacc]
    constructor
    · intro hcontra
      exact absurd hcontra (by simp)
    · intro hex
      exfalso
      have hall := (authorization_is_valid_ok_iff account.nickname tx.inlinetransactions).mp hok
      rcases hex with ⟨i, hi, p, hp, hne⟩
      exact hne (hall i hi p hp)
  · have hrej : CheckTx ctx tx = Except.ok (CheckResult.rejected RejectKind.AuthorizationDenied) := by
      unfold CheckTx
      rw [hred, herr]
    have hnall : ¬ ∀ i ∈ tx.inlinetransactions, ∀ p ∈ i.authorization,
        p.account = account.nickname := by
      intro hc
      rw [← authorization_is_valid_ok_iff] at hc
      rw [hc] at herr
      simp at herr
    push_neg at hnall
    refine ⟨⟨fun _ => hnall, fun _ => hrej⟩, fun hall => ?_⟩
    exfalso
    rcases hnall with ⟨i, hi, p, hp, hne⟩
    exact hne (hall i hi p hp)

/-- C2 witness: with every earlier check passing, a transaction whose single
authorization entry names account 43 while the sender's identity is 42 is
rejected with `AuthorizationDenied`. -/
theorem checkTx_self_authorization_witness :
    txBadAuthW.inlinetransactions ≠ [] ∧
      CheckTx ctxW txBadAuthW = Except.ok (CheckResult.rejected RejectKind.AuthorizationDenied) := by
  refine ⟨by decide, ?_⟩
  have h := checkTx_self_authorization ctxW txBadAuthW accountW 0 (by decide) rfl rfl rfl rfl
      (by decide) rfl rfl rfl
  exact h.1.mpr ⟨itxBadAuthW, by decide, { account := 43, perm := 7 }, by decide, by decide⟩

-- The check pipeline produces a `runtime_error` exactly when all checks
-- before `GetFuel` pass and the min-fee lookup fails, and the escaping
-- message is `GetFuel`'s.
theorem checkTxInner_runtime_iff (ctx : Ctx) (tx : Tx) (m : String) :
    checkTxInner ctx tx = Except.error (CheckErr.runtimeErr m) ↔
      (tx.inlinetransactions ≠ [] ∧ ctx.feeCheckOk = true ∧ ctx.regidCheckOk = true ∧
       contract_is_valid ctx tx.inlinetransactions = Except.ok () ∧ ctx.minFee = none ∧
       m = minFeeErrorMsg) := by
  constructor
  · intro h
    unfold checkTxInner GetFuel at h
    split at h
    · rename_i hpos
      split at h
      · rename_i hfee
        split at h
        · rename_i hreg
          split at h
          · simp at h
          · rename_i u heqc
            split at h
            · rename_i x2 m2 heqf
              injection h with hinj
              injection hinj with hmm
              cases hmf : ctx.minFee with
              | none =>
                rw [hmf] at heqf
                injection heqf with hh
                exact ⟨List.ne_nil_of_length_pos hpos, hfee, hreg, heqc, rfl,
                  (hh.trans hmm).symm⟩
              | some mf =>
                rw [hmf] at heqf
                simp at heqf
            · rename_i x2 fuel heqf
              split at h
              · split at h
                · simp at h
                · split at h
                  · split at h
                    · split at h
                      · simp at h
                      · simp at h
                    · simp at h
                  · simp at h
              · simp at h
        · simp at h
      · simp at h
    · simp at h
  · rintro ⟨h1, h2, h3, h4, h5, rfl⟩
    have hpos : 0 < tx.inlinetransactions.length := List.length_pos.mpr h1
    simp [checkTxInner, GetFuel, hpos, h2, h3, h4, h5]

/-- C5: the failure of the minimum-fee lookup inside `GetFuel` raises a
`std::runtime_error`, which `CheckTx`'s handler (matching only
`wasm::exception`) does not catch: `CheckTx` faults (`Except.error`) exactly
when all checks before `GetFuel` pass and the min-fee lookup fails; every
`wasm::exception` raised by a check is caught and converted into a
structured rejection; and the only message that can escape `CheckTx` is
`GetFuel`'s min-fee message. -/
theorem checkTx_minfee_fault (ctx : Ctx) (tx : Tx) :
    (CheckTx ctx tx = Except.error minFeeErrorMsg ↔
      (tx.inlinetransactions ≠ [] ∧ ctx.feeCheckOk = true ∧ ctx.regidCheckOk = true ∧
       contract_is_valid ctx tx.inlinetransactions = Except.ok () ∧ ctx.minFee = none)) ∧
    (∀ k, checkTxInner ctx tx = Except.error (CheckErr.wasmExc k) →
      CheckTx ctx tx = Except.ok (CheckResult.rejected k)) ∧
    (∀ m, CheckTx ctx tx = Except.error m → m = minFeeErrorMsg) := by
  refine ⟨⟨?_, ?_⟩, ?_, ?_⟩
  · intro h
    unfold CheckTx at h
    split at h
    · simp at h
    · simp at h
    · rename_i m2 heq
      simp at h
      rw [h] at heq
      have := (checkTxInner_runtime_iff ctx tx minFeeErrorMsg).mp heq
      exact ⟨this.1, this.2.1, this.2.2.1, this.2.2.2.1, this.2.2.2.2.1⟩
  · rintro ⟨h1, h2, h3, h4, h5⟩
    have hrun := (checkTxInner_runtime_iff ctx tx minFeeErrorMsg).mpr
      ⟨h1, h2, h3, h4, h5, rfl⟩
    unfold CheckTx
    rw [hrun]
  · intro k hk
    unfold CheckTx
    rw [hk]
  · intro m hm
    unfold CheckTx at hm
    split at hm
    · simp at hm
    · simp at hm
    · rename_i m2 heq
      simp at hm
      rw [hm] at heq
      exact ((checkTxInner_runtime_iff ctx tx m).mp heq).2.2.2.2.2

/-- C5 witness: in a context in which the checks before `GetFuel` pass and
the min-fee lookup fails, `CheckTx` faults with `GetFuel`'s message instead
of returning a structured rejection. -/
theorem checkTx_minfee_fault_witness :
    CheckTx ctxNoFeeW txBadAuthW = Except.error minFeeErrorMsg :=
  (checkTx_minfee_fault ctxNoFeeW txBadAuthW).1.mpr ⟨by decide, rfl, rfl, rfl, rfl⟩

-- A successful dispatch loop yields one trace per inline transaction, in
-- order, each produced by exactly one dispatch with `recurse_depth = 0` and
-- `receiver` equal to that inline transaction's contract id.
theorem runDispatches_ok_spec (env : ExecEnv) :
    ∀ (l : List InlineTransaction) (s : TimerState) (trs : List ITrace) (sfin : TimerState),
      runDispatches env l s = Except.ok (trs, sfin) →
      trs.length = l.length ∧
      List.Forall₂
        (fun t tr => ∃ s1 s2, DispatchInlineTransaction env t t.contract 0 s1 = Except.ok (tr, s2))
        l trs := by
  intro l
  induction l with
  | nil =>
    intro s trs sfin h
    unfold runDispatches at h
    simp at h
    simp [h.1]
  | cons t rest ih =>
    intro s trs sfin h
    unfold runDispatches at h
    split at h
    · simp at h
    · rename_i tr s1 heq1
      split at h
      · simp at h
      · rename_i trs2 s2 heq2
        simp at h
        rcases ih s1 trs2 s2 heq2 with ⟨hlen, hfa⟩
        refine ⟨?_, ?_⟩
        · rw [← h.1]
          simp [hlen]
        · rw [← h.1]
          exact List.Forall₂.cons ⟨s, s1, heq1⟩ hfa

/-- C6: when every dispatch succeeds, `ExecuteTx` succeeds with the trace
tagged with the transaction's hash, one top-level trace entry per inline
transaction (in list order, each produced by exactly one dispatch with
`recurse_depth = 0` and `receiver` equal to that inline transaction's
contract id), the elapsed field read from the billing timer at completion
time (`endTime - pseudo_start`, the timer having been started at
`startTime`), and the serialized trace set as the transaction's result. -/
theorem executeTx_success_shape (env : ExecEnv) (tx : Tx) (prior : TimerState)
    (startTime endTime : Int) (trs : List ITrace) (sfin : TimerState)
    (h : runDispatches env tx.inlinetransactions
        { pseudo_start := startTime, billed_time := prior.billed_time } = Except.ok (trs, sfin)) :
    ExecuteTx env tx prior startTime endTime =
      Except.ok
        { timer := sfin
        , trace := { trx_id := tx.hash, elapsed := endTime - sfin.pseudo_start, traces := trs }
        , result := to_variant_transaction_trace env.ser
            { trx_id := tx.hash, elapsed := endTime - sfin.pseudo_start, traces := trs } } ∧
    trs.length = tx.inlinetransactions.length ∧
    List.Forall₂
      (fun t tr => ∃ s1 s2, DispatchInlineTransaction env t t.contract 0 s1 = Except.ok (tr, s2))
      tx.inlinetransactions trs := by
  rcases runDispatches_ok_spec env tx.inlinetransactions _ trs sfin h with ⟨hlen, hfa⟩
  refine ⟨?_, hlen, hfa⟩
  simp only [ExecuteTx, timer_elapsed]
  rw [h]

/-- C6 witness: a two-inline-transaction fixture with an always-succeeding
engine, executed from instant 0 to instant 10, produces exactly two
top-level trace entries. -/
theorem executeTx_success_shape_witness :
    runDispatches envExecOkW txExecW.inlinetransactions
        { pseudo_start := 0, billed_time := 0 } =
      Except.ok (trsExecW, { pseudo_start := 0, billed_time := 0 }) ∧
    trsExecW.length = txExecW.inlinetransactions.length :=
  ⟨rfl,
   (executeTx_success_shape envExecOkW txExecW { pseudo_start := 0, billed_time := 0 } 0 10
     trsExecW { pseudo_start := 0, billed_time := 0 } rfl).2.1⟩

/-- C7: if any dispatch raises a `wasm::exception`, `ExecuteTx` fails with a
`DoS(100, ...)` rejection carrying the exception's code and detail; no
success outcome — hence no serialized result and no trace, partial or
otherwise — is produced. -/
theorem executeTx_abort_on_exception (env : ExecEnv) (tx : Tx) (prior : TimerState)
    (startTime endTime : Int) (e : WasmErr)
    (h : runDispatches env tx.inlinetransactions
        { pseudo_start := startTime, billed_time := prior.billed_time } = Except.error e) :
    ExecuteTx env tx prior startTime endTime =
      Except.error { level := 100, code := e.code, msg := e.detail } ∧
    ∀ out : ExecOutcome, ExecuteTx env tx prior startTime endTime ≠ Except.ok out := by
  have habort : ExecuteTx env tx prior startTime endTime =
      Except.error { level := 100, code := e.code, msg := e.detail } := by
    simp only [ExecuteTx]
    rw [h]
  refine ⟨habort, fun out hcontra => ?_⟩
  rw [habort] at hcontra
  simp at hcontra

/-- C7 witness: the first inline transaction dispatches successfully, the
second throws `wasm::exception` code 123; `ExecuteTx` fails with
`DoS(100, code 123)` and the first transaction's partial trace is
discarded. -/
theorem executeTx_abort_on_exception_witness :
    runDispatches envExecFailW txExecW.inlinetransactions
        { pseudo_start := 0, billed_time := 0 } =
      Except.error { code := 123, detail := "inline tx failed" } ∧
    ExecuteTx envExecFailW txExecW { pseudo_start := 0, billed_time := 0 } 0 10 =
      Except.error { level := 100, code := 123, msg := "inline tx failed" } :=
  ⟨rfl,
   (executeTx_abort_on_exception envExecFailW txExecW { pseudo_start := 0, billed_time := 0 } 0 10
     { code := 123, detail := "inline tx failed" } rfl).1⟩

end WasmTx
